import Mathlib

/-!
Verification of the FAATileConverter pipeline (scripts/download_faa_charts.py,
scripts/convert_faa_charts.py, scripts/utils.py) against its specification.

The Python code is shallowly embedded: strings are `List Char`, Python dicts
holding JSON data are the mutual inductive `Json`/`Members` (an ordered
association list, matching the insertion-ordered Python dict), the metadata
file trio (primary, `.bak`, `.tmp`) is the record `MetaFS`, and effectful
steps (network download, zip extraction, the external tiling subprocess) are
parameters recording their observable outcome.
-/

namespace FAAChart

mutual

/-- JSON values as stored in the metadata log `faa_chart_log.json`.
The metadata store only ever holds objects, strings, booleans and nulls
(records are made of `downloaded`, `published_date`, `timestamp` fields), so
numbers and arrays are omitted from the value domain. -/
inductive Json where
  | null : Json
  | bool : Bool → Json
  | str : List Char → Json
  | obj : Members → Json

/-- The members of a JSON object, in insertion order (Python dicts preserve
insertion order; updating an existing key keeps its position). -/
inductive Members where
  | nil : Members
  | cons : List Char → Json → Members → Members

end

/-- Python dict lookup `d.get(key)`: first (unique) matching key. -/
def mget : Members → List Char → Option Json
  | .nil, _ => none
  | .cons k v rest, key => if k = key then some v else mget rest key

/-- Python dict assignment `d[key] = v`: update in place if the key exists
(keeping its position), otherwise append. -/
def mset : Members → List Char → Json → Members
  | .nil, key, v => .cons key v .nil
  | .cons k v0 rest, key, v =>
    if k = key then .cons k v rest else .cons k v0 (mset rest key v)

/-- `metadata.get(chart_type, \x7b\x7d)` followed by use as a dict: the
chart-type-scoped sub-mapping, empty when the key is absent.  (Per the data
model every present chart-type value is a sub-mapping.) -/
def getSub (md : Members) (key : List Char) : Members :=
  match mget md key with
  | some (.obj m) => m
  | _ => .nil

/-- `Json.null` test (Python `is None` on a loaded JSON value). -/
def Json.isNull : Json → Bool
  | .null => true
  | _ => false

/-- `os.path.basename(url)`: the part after the last slash. -/
def basename (s : List Char) : List Char :=
  s.foldl (fun acc c => if c = '/' then [] else acc ++ [c]) []

/-- `suffix.isSuffixOf s`, Python `s.endswith(suffix)`. -/
def endsWithStr (s suffix : List Char) : Bool :=
  suffix.isSuffixOf s

/-- An entry produced by `fetch_ifr_low_high_links`: the row's chart code, the
publication date parsed from the row (which the code leaves as `None` when no
date could be parsed), and the absolute download URL. -/
structure IfrEntry where
  chart_code : List Char
  published_date : Option (List Char)
  url : List Char
deriving DecidableEq

/-- Python str() of an optional string, as used inside an f-string:
`None` renders as the four characters `None`. -/
def pyStrOfOpt : Option (List Char) → List Char
  | some s => s
  | none => "None".data

/-- The key `f"\x7bentry['chart_code']\x7d_\x7bentry['published_date']\x7d"`. -/
def ifrKey (e : IfrEntry) : List Char :=
  e.chart_code ++ "_".data ++ pyStrOfOpt e.published_date

/-- `is_vfr_chart_current(metadata, url)`:
`metadata.get('vfr', \x7b\x7d).get(os.path.basename(url)) is not None`. -/
def is_vfr_chart_current (metadata : Members) (url : List Char) : Bool :=
  match mget (getSub metadata "vfr".data) (basename url) with
  | some v => !v.isNull
  | none => false

/-- `is_ifr_chart_current(metadata, entry, chart_type)`:
`metadata.get(chart_type, \x7b\x7d).get(key) is not None` for the composite
key `chart_code_published_date`. -/
def is_ifr_chart_current (metadata : Members) (e : IfrEntry) (chart_type : List Char) : Bool :=
  match mget (getSub metadata chart_type) (ifrKey e) with
  | some v => !v.isNull
  | none => false

/-- A record that the key maps to a JSON object containing `downloaded: true`. -/
def hasDownloadedTrue (r : Json) : Prop :=
  ∃ m, r = Json.obj m ∧ mget m "downloaded".data = some (Json.bool true)

/-- A metadata store holding one VFR record with `downloaded: true`. -/
def sampleVfrMd : Members :=
  .cons "vfr".data
    (.obj (.cons "Seattle.zip".data
      (.obj (.cons "downloaded".data (.bool true)
        (.cons "timestamp".data (.str "2025-01-01T00:00:00".data) .nil))) .nil)) .nil

/-- A VFR chart URL whose basename is the key of `sampleVfrMd`. -/
def sampleVfrUrl : List Char := "https://aeronav.faa.gov/visual/Seattle.zip".data

/-- An IFR entry with a parsed publication date. -/
def sampleIfrEntry : IfrEntry :=
  { chart_code := "ELUS1".data, published_date := some "2025-01-01".data,
    url := "https://aeronav.faa.gov/enroute/elus1.zip".data }

/-- A metadata store holding one IFR-low record with `downloaded: true`. -/
def sampleIfrMd : Members :=
  .cons "ifr_low".data
    (.obj (.cons "ELUS1_2025-01-01".data
      (.obj (.cons "downloaded".data (.bool true) .nil)) .nil)) .nil

/-- C6: for a chart identity present in the chart-type-scoped sub-mapping with
`downloaded: true`, the is-current predicate returns true; for an identity
absent from that sub-mapping (in particular one keyed under a different
filename, a different chart_code/published_date composite, or a different
chart-type sub-mapping) it returns false. -/
theorem C6_is_current_predicate :
    (∀ (md : Members) (url : List Char) (r : Json),
      mget (getSub md "vfr".data) (basename url) = some r → hasDownloadedTrue r →
      is_vfr_chart_current md url = true) ∧
    (∀ (md : Members) (url : List Char),
      mget (getSub md "vfr".data) (basename url) = none →
      is_vfr_chart_current md url = false) ∧
    (∀ (md : Members) (e : IfrEntry) (ct : List Char) (r : Json),
      mget (getSub md ct) (ifrKey e) = some r → hasDownloadedTrue r →
      is_ifr_chart_current md e ct = true) ∧
    (∀ (md : Members) (e : IfrEntry) (ct : List Char),
      mget (getSub md ct) (ifrKey e) = none →
      is_ifr_chart_current md e ct = false) := by
  refine ⟨?_, ?_, ?_, ?_⟩
  · intro md url r h hd
    obtain ⟨m, rfl, -⟩ := hd
    unfold is_vfr_chart_current
    rw [h]
    rfl
  · intro md url h
    unfold is_vfr_chart_current
    rw [h]
  · intro md e ct r h hd
    obtain ⟨m, rfl, -⟩ := hd
    unfold is_ifr_chart_current
    rw [h]
    rfl
  · intro md e ct h
    unfold is_ifr_chart_current
    rw [h]

/-- C6 witness: the predicate evaluated on concrete stores via the theorem. -/
theorem C6_is_current_predicate_witness :
    is_vfr_chart_current sampleVfrMd sampleVfrUrl = true ∧
    is_vfr_chart_current Members.nil sampleVfrUrl = false ∧
    is_ifr_chart_current sampleIfrMd sampleIfrEntry "ifr_low".data = true ∧
    is_ifr_chart_current Members.nil sampleIfrEntry "ifr_low".data = false := by
  refine ⟨?_, ?_, ?_, ?_⟩
  · exact C6_is_current_predicate.1 sampleVfrMd sampleVfrUrl _ rfl
      ⟨_, rfl, rfl⟩
  · exact C6_is_current_predicate.2.1 Members.nil sampleVfrUrl rfl
  · exact C6_is_current_predicate.2.2.1 sampleIfrMd sampleIfrEntry "ifr_low".data _ rfl
      ⟨_, rfl, rfl⟩
  · exact C6_is_current_predicate.2.2.2 Members.nil sampleIfrEntry "ifr_low".data rfl

/-- C9: the is-current predicates return true exactly when the identity's key
maps to a non-null value in the chart-type-scoped sub-mapping; the
`downloaded` flag inside the record is never inspected, so a record with
`downloaded: false`, or an empty record, still yields true. -/
theorem C9_is_current_ignores_downloaded_flag :
    (∀ (md : Members) (url : List Char),
      is_vfr_chart_current md url = true ↔
        ∃ v, mget (getSub md "vfr".data) (basename url) = some v ∧ v.isNull = false) ∧
    (∀ (md : Members) (e : IfrEntry) (ct : List Char),
      is_ifr_chart_current md e ct = true ↔
        ∃ v, mget (getSub md ct) (ifrKey e) = some v ∧ v.isNull = false) ∧
    is_vfr_chart_current
      (.cons "vfr".data (.obj (.cons "Seattle.zip".data
        (.obj (.cons "downloaded".data (.bool false) .nil)) .nil)) .nil)
      sampleVfrUrl = true ∧
    is_vfr_chart_current
      (.cons "vfr".data (.obj (.cons "Seattle.zip".data (.obj .nil) .nil)) .nil)
      sampleVfrUrl = true := by
  refine ⟨?_, ?_, rfl, rfl⟩
  · intro md url
    unfold is_vfr_chart_current
    cases h : mget (getSub md "vfr".data) (basename url) with
    | none => simp
    | some v =>
      simp only [Bool.not_eq_true']
      constructor
      · intro hv
        exact ⟨v, rfl, hv⟩
      · rintro ⟨w, hw, hwn⟩
        cases hw
        exact hwn
  · intro md e ct
    unfold is_ifr_chart_current
    cases h : mget (getSub md ct) (ifrKey e) with
    | none => simp
    | some v =>
      simp only [Bool.not_eq_true']
      constructor
      · intro hv
        exact ⟨v, rfl, hv⟩
      · rintro ⟨w, hw, hwn⟩
        cases hw
        exact hwn

/-! ## Tile conversion: `run_gdal2tiles` (scripts/convert_faa_charts.py) -/

/-- Model of `run_gdal2tiles(input_path, output_dir, zoom)`.  The external
`gdal2tiles.py` subprocess is a collaborator: `toolOk` records whether it
ultimately exited successfully (with or without the `--quiet` retry), and
`producedFiles` are the names of the files it left under `output_dir`
(as enumerated by `os.walk`).  On success the function removes every file
whose name does not end in `.png` and returns `True`; `removeOk` records
whether the `os.remove` loop itself raised (any exception is caught by the
outer handler, which returns `False` leaving `leftoverFiles` behind). -/
def run_gdal2tiles (toolOk removeOk : Bool)
    (producedFiles leftoverFiles : List (List Char)) : Bool × List (List Char) :=
  if toolOk then
    if removeOk then
      (true, producedFiles.filter (fun f => endsWithStr f ".png".data))
    else
      (false, leftoverFiles)
  else
    (false, producedFiles)

/-- C10: whenever `run_gdal2tiles` returns true, every file remaining under
the output directory has a name ending in `.png`. -/
theorem C10_gdal2tiles_true_only_png (toolOk removeOk : Bool)
    (producedFiles leftoverFiles : List (List Char))
    (h : (run_gdal2tiles toolOk removeOk producedFiles leftoverFiles).1 = true)
    (f : List Char)
    (hf : f ∈ (run_gdal2tiles toolOk removeOk producedFiles leftoverFiles).2) :
    endsWithStr f ".png".data = true := by
  cases toolOk with
  | false => simp [run_gdal2tiles] at h
  | true =>
    cases removeOk with
    | false => simp [run_gdal2tiles] at h
    | true =>
      simp only [run_gdal2tiles, if_pos] at hf
      exact (List.mem_filter.mp hf).2

/-- C10 witness: a concrete tool run leaving a PNG tile and an XML sidecar. -/
theorem C10_gdal2tiles_true_only_png_witness :
    (run_gdal2tiles true true ["5/10/12.png".data, "tilemapresource.xml".data] []).1 = true ∧
    "5/10/12.png".data ∈
      (run_gdal2tiles true true ["5/10/12.png".data, "tilemapresource.xml".data] []).2 ∧
    endsWithStr "5/10/12.png".data ".png".data = true := by
  refine ⟨rfl, by decide, ?_⟩
  exact C10_gdal2tiles_true_only_png true true
    ["5/10/12.png".data, "tilemapresource.xml".data] [] rfl "5/10/12.png".data (by decide)

/-! ## VFR link discovery: `fetch_vfr_sectional_and_terminal_links` -/

/-- A `div` element of the parsed VFR page: its `id` attribute and the
`href` attributes of the anchor tags it contains (`find_all('a', href=True)`,
in document order). -/
structure DivTag where
  id : List Char
  hrefs : List (List Char)
deriving DecidableEq

/-- `str.rstrip('/')`. -/
def rstripSlash (s : List Char) : List Char :=
  (s.reverse.dropWhile (fun c => c = '/')).reverse

/-- `make_absolute_url(base_url, href)` from scripts/download_faa_charts.py. -/
def make_absolute_url (base_url href : List Char) : List Char :=
  if "http".data.isPrefixOf href then href
  else if "/".data.isPrefixOf href then "https://www.faa.gov".data ++ href
  else rstripSlash base_url ++ "/".data ++ href

/-- `soup.find('div', id=tab_id)`: the first div with the given id. -/
def findTab (divs : List DivTag) (tid : List Char) : Option DivTag :=
  divs.find? (fun d => d.id == tid)

/-- The links collected for one tab id: each anchor href ending in `.zip`,
made absolute.  Returns nothing when the tab is missing (the code logs a
warning and continues). -/
def tabLinks (base_url : List Char) (divs : List DivTag) (tid : List Char) :
    List (List Char) :=
  match findTab divs tid with
  | none => []
  | some tab =>
    (tab.hrefs.filter (fun h => endsWithStr h ".zip".data)).map
      (make_absolute_url base_url)

/-- `fetch_vfr_sectional_and_terminal_links(base_url)` on an
already-fetched-and-parsed page, represented by its list of divs: the loop
`for tab_id in ['sectional', 'terminalArea']` appends the `.zip` links of
each designated tab, absolutized. -/
def fetch_vfr_sectional_and_terminal_links (base_url : List Char)
    (divs : List DivTag) : List (List Char) :=
  tabLinks base_url divs "sectional".data ++ tabLinks base_url divs "terminalArea".data

/-- Any link collected for a tab comes from an anchor of that tab's first
matching div, ends in `.zip`, and is the absolutized href. -/
theorem mem_tabLinks {base_url : List Char} {divs : List DivTag}
    {tid l : List Char} (h : l ∈ tabLinks base_url divs tid) :
    ∃ tab, findTab divs tid = some tab ∧
      ∃ href, href ∈ tab.hrefs ∧ endsWithStr href ".zip".data = true ∧
        l = make_absolute_url base_url href := by
  unfold tabLinks at h
  split at h
  · simp at h
  · next tab heq =>
    obtain ⟨href, hhref, rfl⟩ := List.mem_map.mp h
    exact ⟨tab, heq, href, (List.mem_filter.mp hhref).1, (List.mem_filter.mp hhref).2, rfl⟩

/-- C8: every link returned by the VFR extractor occurs inside the first div
with id `sectional` or `terminalArea`, has an href ending in `.zip`, and is
that href converted to an absolute URL. -/
theorem C8_vfr_links_only_designated_tabs (base_url : List Char)
    (divs : List DivTag) (l : List Char)
    (h : l ∈ fetch_vfr_sectional_and_terminal_links base_url divs) :
    ∃ tid, (tid = "sectional".data ∨ tid = "terminalArea".data) ∧
      ∃ tab, findTab divs tid = some tab ∧
        ∃ href, href ∈ tab.hrefs ∧ endsWithStr href ".zip".data = true ∧
          l = make_absolute_url base_url href := by
  rcases List.mem_append.mp h with h1 | h2
  · exact ⟨"sectional".data, Or.inl rfl, mem_tabLinks h1⟩
  · exact ⟨"terminalArea".data, Or.inr rfl, mem_tabLinks h2⟩

/-- The FAA VFR page URL (`VFR_CHARTS_URL`). -/
def VFR_CHARTS_URL : List Char :=
  "https://www.faa.gov/air_traffic/flight_info/aeronav/digital_products/vfr/".data

/-- A concrete parsed VFR page used as a fixture. -/
def sampleVfrPage : List DivTag :=
  [{ id := "sectional".data, hrefs := ["Seattle.zip".data, "Seattle.pdf".data] },
   { id := "terminalArea".data, hrefs := ["tac/Denver.zip".data] }]

/-- C8 witness: a concrete link from the fixture, via the theorem. -/
theorem C8_vfr_links_only_designated_tabs_witness :
    make_absolute_url VFR_CHARTS_URL "Seattle.zip".data ∈
      fetch_vfr_sectional_and_terminal_links VFR_CHARTS_URL sampleVfrPage ∧
    ∃ tid, (tid = "sectional".data ∨ tid = "terminalArea".data) ∧
      ∃ tab, findTab sampleVfrPage tid = some tab ∧
        ∃ href, href ∈ tab.hrefs ∧ endsWithStr href ".zip".data = true ∧
          make_absolute_url VFR_CHARTS_URL "Seattle.zip".data =
            make_absolute_url VFR_CHARTS_URL href := by
  refine ⟨by decide, ?_⟩
  exact C8_vfr_links_only_designated_tabs VFR_CHARTS_URL sampleVfrPage _ (by decide)

/-! ## Download and extraction (scripts/utils.py, scripts/download_faa_charts.py) -/

/-- The observable outcome of calling `unzip_file(zip_path, extract_to)`:
whether the archive contents were extracted, whether the zip file was
removed afterwards, and the exception the call lets escape (if any). -/
structure UnzipEffect where
  extracted : Bool
  zipRemoved : Bool
  raised : Option (List Char)
deriving DecidableEq

/-- `unzip_file` from scripts/download_faa_charts.py.  `extractRaises` records
whether `zip_ref.extractall` raises (e.g. a corrupt archive), `removeRaises`
whether `os.remove` raises.  Both exception handlers only log and return, so
`raised` is `none` on every path: the caller can never observe an extraction
failure through this function. -/
def unzip_file (extractRaises removeRaises : Bool) : UnzipEffect :=
  if extractRaises then
    { extracted := false, zipRemoved := false, raised := none }
  else if removeRaises then
    { extracted := true, zipRemoved := false, raised := none }
  else
    { extracted := true, zipRemoved := true, raised := none }

/-- `download_and_extract_zip` from scripts/utils.py.  `downloadResult` is the
outcome of the injected `download_file_func` (the local zip path, or the
exception it raises); `unzipFn` is the injected `unzip_file_func`.  The inner
handler turns an exception escaping `unzipFn` into `(False, "Unzip failed:
...")`; otherwise the call is reported successful. -/
def download_and_extract_zip (downloadResult : Except (List Char) (List Char))
    (unzipFn : List Char → UnzipEffect) : Bool × Option (List Char) :=
  match downloadResult with
  | .error e => (false, some e)
  | .ok zipPath =>
    match (unzipFn zipPath).raised with
    | some e => (false, some ("Unzip failed: ".data ++ e))
    | none => (true, none)

/-- The metadata record written for a successfully processed VFR chart. -/
def vfrRecord (ts : List Char) : Json :=
  .obj (.cons "downloaded".data (.bool true)
    (.cons "timestamp".data (.str ts) .nil))

/-- The metadata record written for a successfully processed IFR chart. -/
def ifrRecord (published_date : Option (List Char)) (ts : List Char) : Json :=
  .obj (.cons "downloaded".data (.bool true)
    (.cons "published_date".data (match published_date with
      | some d => .str d
      | none => .null)
    (.cons "timestamp".data (.str ts) .nil)))

/-- `metadata.setdefault('vfr', \x7b\x7d)[basename url] = vfrRecord ts`. -/
def setVfrDownloaded (metadata : Members) (url ts : List Char) : Members :=
  mset metadata "vfr".data
    (.obj (mset (getSub metadata "vfr".data) (basename url) (vfrRecord ts)))

/-- `download_and_extract_single_vfr(url, metadata)`: runs
`download_and_extract_zip` with the production `download_file` and
`unzip_file`, and on reported success writes a `downloaded: true` record
keyed by the zip's basename.  `ts` is the wall-clock timestamp. -/
def download_and_extract_single_vfr (url : List Char) (metadata : Members)
    (downloadResult : Except (List Char) (List Char))
    (extractRaises removeRaises : Bool) (ts : List Char) :
    (Bool × Option (List Char)) × Members :=
  let res := download_and_extract_zip downloadResult
    (fun _ => unzip_file extractRaises removeRaises)
  if res.1 then (res, setVfrDownloaded metadata url ts)
  else (res, metadata)

/-- `download_and_extract_single_ifr(entry, chart_type, metadata)`: like the
VFR variant, but keyed by `chart_code_published_date` under the given
chart-type sub-mapping. -/
def download_and_extract_single_ifr (e : IfrEntry) (chart_type : List Char)
    (metadata : Members) (downloadResult : Except (List Char) (List Char))
    (extractRaises removeRaises : Bool) (ts : List Char) :
    (Bool × Option (List Char)) × Members :=
  let res := download_and_extract_zip downloadResult
    (fun _ => unzip_file extractRaises removeRaises)
  if res.1 then
    (res, mset metadata chart_type
      (.obj (mset (getSub metadata chart_type) (ifrKey e)
        (ifrRecord e.published_date ts))))
  else (res, metadata)

/-- A sample timestamp. -/
def sampleTs : List Char := "2025-01-01T00:00:00+00:00".data

/-- C1 (violated by the code): when extraction of the downloaded zip raises,
`unzip_file` swallows the exception (`raised = none`, nothing extracted), so
`download_and_extract_zip` still reports success and both
`download_and_extract_single_vfr` and `download_and_extract_single_ifr`
write a record marked `downloaded: true` for the chart whose content was
never extracted. -/
theorem C1_downloaded_record_despite_failed_extraction :
    (unzip_file true false).extracted = false ∧
    (unzip_file true false).raised = none ∧
    download_and_extract_zip (.ok "downloads/sectional/Seattle.zip".data)
      (fun _ => unzip_file true false) = (true, none) ∧
    (download_and_extract_single_vfr sampleVfrUrl Members.nil
      (.ok "downloads/sectional/Seattle.zip".data) true false sampleTs).1.1 = true ∧
    mget (getSub (download_and_extract_single_vfr sampleVfrUrl Members.nil
      (.ok "downloads/sectional/Seattle.zip".data) true false sampleTs).2 "vfr".data)
      (basename sampleVfrUrl) = some (vfrRecord sampleTs) ∧
    (download_and_extract_single_ifr sampleIfrEntry "ifr_low".data Members.nil
      (.ok "downloads/ifr_low/elus1.zip".data) true false sampleTs).1.1 = true ∧
    mget (getSub (download_and_extract_single_ifr sampleIfrEntry "ifr_low".data
      Members.nil (.ok "downloads/ifr_low/elus1.zip".data) true false sampleTs).2
      "ifr_low".data) (ifrKey sampleIfrEntry) =
      some (ifrRecord sampleIfrEntry.published_date sampleTs) :=
  ⟨rfl, rfl, rfl, rfl, rfl, rfl, rfl⟩

/-! ## The VFR batch driver: `process_vfr_charts` -/

/-- The charts a run of `process_vfr_charts` actually processes: every
discovered link, minus those skipped by the is-current check — which only
runs when `check_current` is true.  Each retained link incurs a download
(`download_file` fetches it; the zip of a previously successful run was
removed by `unzip_file`, so no local copy short-circuits it). -/
def vfrToDownload (metadata : Members) (links : List (List Char))
    (check_current : Bool) : List (List Char) :=
  links.filter (fun url => !(check_current && is_vfr_chart_current metadata url))

/-- One worker task of `process_vfr_charts`: `download_and_extract_single_vfr`
records a `downloaded: true` entry exactly when it succeeds; `ok url`
abstracts that per-chart success. -/
def vfrStep (ok : List Char → Bool) (ts : List Char) (md : Members)
    (url : List Char) : Members :=
  if ok url then setVfrDownloaded md url ts else md

/-- `process_vfr_charts(metadata, check_current)` for one run: `links` is the
fetched listing (`fetch_vfr_sectional_and_terminal_links`), and the
thread-pool fan-out is modelled sequentially — each worker writes to a
distinct key (its chart's basename), so the interleaving does not affect the
resulting store. -/
def process_vfr_charts (metadata : Members) (links : List (List Char))
    (check_current : Bool) (ok : List Char → Bool) (ts : List Char) : Members :=
  (vfrToDownload metadata links check_current).foldl (vfrStep ok ts) metadata

/-- Looking up a key just written with `mset`. -/
theorem mget_mset : ∀ (m : Members) (k k2 : List Char) (v : Json),
    mget (mset m k v) k2 = if k = k2 then some v else mget m k2
  | .nil, k, k2, v => by simp [mset, mget]
  | .cons k0 v0 rest, k, k2, v => by
    have ih := mget_mset rest k k2 v
    simp only [mset]
    by_cases h : k0 = k
    · subst h
      simp only [if_pos rfl, mget]
      by_cases h2 : k0 = k2 <;> simp [h2]
    · simp only [if_neg h, mget, ih]
      by_cases h2 : k0 = k2
      · subst h2
        have hne : ¬(k = k0) := fun e => h e.symm
        simp [hne]
      · simp [h2]

/-- The sub-mapping after writing the chart-type key. -/
theorem getSub_mset_self (md : Members) (k : List Char) (m2 : Members) :
    getSub (mset md k (.obj m2)) k = m2 := by
  unfold getSub
  rw [mget_mset, if_pos rfl]

/-- A chart is current right after its record is written. -/
theorem is_vfr_current_setVfr_self (md : Members) (url ts : List Char) :
    is_vfr_chart_current (setVfrDownloaded md url ts) url = true := by
  unfold is_vfr_chart_current setVfrDownloaded
  rw [getSub_mset_self, mget_mset, if_pos rfl]
  rfl

/-- Writing one chart's record never makes another chart stop being current. -/
theorem is_vfr_current_mono (md : Members) (url url2 ts : List Char)
    (h : is_vfr_chart_current md url = true) :
    is_vfr_chart_current (setVfrDownloaded md url2 ts) url = true := by
  by_cases he : basename url2 = basename url
  · unfold is_vfr_chart_current setVfrDownloaded
    rw [getSub_mset_self, mget_mset, if_pos he]
    rfl
  · unfold is_vfr_chart_current at h ⊢
    unfold setVfrDownloaded
    rw [getSub_mset_self, mget_mset, if_neg he]
    exact h

/-- Fold invariant: after the workers run, every chart that was either in the
work list (with its task succeeding) or already current stays current. -/
theorem foldl_vfrStep_current (ok : List Char → Bool) (ts : List Char)
    (l : List (List Char)) (md : Members) (url : List Char)
    (hok : ∀ u ∈ l, ok u = true)
    (h : url ∈ l ∨ is_vfr_chart_current md url = true) :
    is_vfr_chart_current (l.foldl (vfrStep ok ts) md) url = true := by
  induction l generalizing md with
  | nil =>
    rcases h with h | h
    · simp at h
    · simpa using h
  | cons u l2 ih =>
    simp only [List.foldl_cons]
    apply ih
    · intro u2 hu2
      exact hok u2 (List.mem_cons_of_mem _ hu2)
    · rcases h with h | h
      · rcases List.mem_cons.mp h with rfl | h2
        · right
          unfold vfrStep
          rw [hok url (List.mem_cons_self _ _), if_pos rfl]
          exact is_vfr_current_setVfr_self md url ts
        · left
          exact h2
      · right
        unfold vfrStep
        by_cases ho : ok u = true
        · rw [ho, if_pos rfl]
          exact is_vfr_current_mono md url u ts h
        · simp only [Bool.not_eq_true] at ho
          rw [ho]
          simpa using h

/-- C2 counterexample: one successful default-flag run records the chart, yet
a second run with the identical store and listing still schedules it for
download — `check_current` defaults to False, so the is-current check never
runs and the count of downloads is 1, not 0. -/
theorem C2_rerun_counterexample :
    is_vfr_chart_current
      (process_vfr_charts Members.nil [sampleVfrUrl] false (fun _ => true) sampleTs)
      sampleVfrUrl = true ∧
    vfrToDownload
      (process_vfr_charts Members.nil [sampleVfrUrl] false (fun _ => true) sampleTs)
      [sampleVfrUrl] false = [sampleVfrUrl] :=
  ⟨rfl, rfl⟩

/-- C2 (amended): when the run is made with the `--check-current` flag and
every chart of the first run was processed successfully, a second run with
the unchanged metadata store and unchanged listing downloads nothing: every
discovered chart is skipped as already processed. -/
theorem C2_rerun_zero_downloads_with_check_current (links : List (List Char))
    (md : Members) (ok : List Char → Bool) (ts : List Char)
    (hok : ∀ u ∈ links, ok u = true) :
    vfrToDownload (process_vfr_charts md links true ok ts) links true = [] := by
  have hcur : ∀ url ∈ links,
      is_vfr_chart_current (process_vfr_charts md links true ok ts) url = true := by
    intro url hu
    unfold process_vfr_charts
    apply foldl_vfrStep_current
    · intro u hu2
      exact hok u (List.mem_of_mem_filter hu2)
    · by_cases h : is_vfr_chart_current md url = true
      · right
        exact h
      · left
        apply List.mem_filter.mpr
        refine ⟨hu, ?_⟩
        simp only [Bool.not_eq_true] at h
        simp [h]
  unfold vfrToDownload
  rw [List.filter_eq_nil_iff]
  intro url hu
  simp [hcur url hu]

/-- C2 witness: the amended idempotence on a concrete store and listing. -/
theorem C2_rerun_zero_downloads_witness :
    vfrToDownload
      (process_vfr_charts Members.nil [sampleVfrUrl] true (fun _ => true) sampleTs)
      [sampleVfrUrl] true = [] :=
  C2_rerun_zero_downloads_with_check_current [sampleVfrUrl] Members.nil
    (fun _ => true) sampleTs (fun _ _ => rfl)

/-! ## The JSON serializer and parser (Python `json.dump` / `json.load`)

The save path calls `json.dump(metadata, f, indent=2)` and the load path
`json.load(f)`.  The model below prints compactly and parses
whitespace-insensitively, exactly like `json.load`; `indent=2` only inserts
insignificant whitespace between tokens, so the round-trip behaviour is the
same.  The printer escapes `"` and backslash and writes control characters
as `\u00XX` (Python additionally uses short escapes and escapes non-ASCII
characters; the parser accepts all those forms, so this, too, does not
affect round-trips).  Surrogate-pair combining is not modelled: the printer
never emits surrogate escapes. -/

/-- JSON insignificant whitespace. -/
def isWs (c : Char) : Bool :=
  c = ' ' || c = '\t' || c = '\n' || c = '\r'

/-- Skip insignificant whitespace. -/
def skipWs (s : List Char) : List Char := s.dropWhile isWs

/-- Lower-case hex digit of a value below 16. -/
def hexDigit (n : Nat) : Char :=
  if n < 10 then Char.ofNat (48 + n) else Char.ofNat (87 + n)

/-- Value of a hex digit character. -/
def hexVal (c : Char) : Option Nat :=
  if '0' ≤ c ∧ c ≤ '9' then some (c.toNat - 48)
  else if 'a' ≤ c ∧ c ≤ 'f' then some (c.toNat - 87)
  else if 'A' ≤ c ∧ c ≤ 'F' then some (c.toNat - 55)
  else none

/-- How the printer escapes one string character. -/
def escChar (c : Char) : List Char :=
  if c = '"' then ['\\', '"']
  else if c = '\\' then ['\\', '\\']
  else if c.toNat < 32 then
    ['\\', 'u', '0', '0', hexDigit (c.toNat / 16), hexDigit (c.toNat % 16)]
  else [c]

/-- The printed body of a JSON string (without the delimiting quotes). -/
def escStr : List Char → List Char
  | [] => []
  | c :: rest => escChar c ++ escStr rest

mutual

/-- Serialize a JSON value (the token stream `json.dump` writes). -/
def dumpJson : Json → List Char
  | .null => 'n' :: 'u' :: 'l' :: 'l' :: []
  | .bool true => 't' :: 'r' :: 'u' :: 'e' :: []
  | .bool false => 'f' :: 'a' :: 'l' :: 's' :: 'e' :: []
  | .str s => '"' :: (escStr s ++ ['"'])
  | .obj ms => '\x7b' :: (dumpMembers ms ++ ['\x7d'])

/-- Serialize the members of an object (no surrounding braces). -/
def dumpMembers : Members → List Char
  | .nil => []
  | .cons k v rest =>
    '"' :: (escStr k ++ '"' :: ':' :: dumpJson v) ++ dumpTail rest

/-- Serialize the second and later members, each preceded by a comma. -/
def dumpTail : Members → List Char
  | .nil => []
  | .cons k v rest =>
    ',' :: ('"' :: (escStr k ++ '"' :: ':' :: dumpJson v)) ++ dumpTail rest

end

/-- Resolution of a single-character escape. -/
def unescape (e : Char) : Option Char :=
  if e = '"' then some '"'
  else if e = '\\' then some '\\'
  else if e = '/' then some '/'
  else if e = 'b' then some (Char.ofNat 8)
  else if e = 'f' then some (Char.ofNat 12)
  else if e = 'n' then some '\n'
  else if e = 'r' then some '\r'
  else if e = 't' then some '\t'
  else none

/-- Parse the body of a JSON string up to and including the closing quote,
returning the decoded characters and the remaining input. -/
def parseStrBody : List Char → Option (List Char × List Char)
  | [] => none
  | c :: rest =>
    if c = '"' then some ([], rest)
    else if c = '\\' then
      match rest with
      | [] => none
      | e :: rest2 =>
        if e = 'u' then
          match rest2 with
          | h1 :: h2 :: h3 :: h4 :: rest3 =>
            match hexVal h1, hexVal h2, hexVal h3, hexVal h4 with
            | some a, some b, some c2, some d =>
              (parseStrBody rest3).map
                (fun p => (Char.ofNat (4096 * a + 256 * b + 16 * c2 + d) :: p.1, p.2))
            | _, _, _, _ => none
          | _ => none
        else
          match unescape e with
          | some c2 => (parseStrBody rest2).map (fun p => (c2 :: p.1, p.2))
          | none => none
    else
      (parseStrBody rest).map (fun p => (c :: p.1, p.2))

mutual

/-- Parse one JSON value (within the value domain of the metadata store),
fuelled for termination; `jsonLoad` supplies ample fuel. -/
def parseVal : Nat → List Char → Option (Json × List Char)
  | 0, _ => none
  | fuel + 1, s =>
    match skipWs s with
    | 'n' :: 'u' :: 'l' :: 'l' :: rest => some (.null, rest)
    | 't' :: 'r' :: 'u' :: 'e' :: rest => some (.bool true, rest)
    | 'f' :: 'a' :: 'l' :: 's' :: 'e' :: rest => some (.bool false, rest)
    | '"' :: rest => (parseStrBody rest).map (fun p => (.str p.1, p.2))
    | '\x7b' :: rest =>
      match skipWs rest with
      | '\x7d' :: rest2 => some (.obj .nil, rest2)
      | rest2 => (parseMembers fuel rest2).map (fun p => (.obj p.1, p.2))
    | _ => none

/-- Parse one or more `"key": value` members followed by the closing brace
(consumed), starting at the opening quote of the first key. -/
def parseMembers : Nat → List Char → Option (Members × List Char)
  | 0, _ => none
  | fuel + 1, s =>
    match s with
    | '"' :: rest =>
      match parseStrBody rest with
      | none => none
      | some (k, rest2) =>
        match skipWs rest2 with
        | ':' :: rest3 =>
          match parseVal fuel rest3 with
          | none => none
          | some (v, rest4) =>
            match skipWs rest4 with
            | ',' :: rest5 =>
              (parseMembers fuel (skipWs rest5)).map
                (fun p => (.cons k v p.1, p.2))
            | '\x7d' :: rest5 => some (.cons k v .nil, rest5)
            | _ => none
        | _ => none
    | _ => none

end

/-- `json.load` on a complete document: parse one value and require only
whitespace to remain.  The fuel `s.length + 1` dominates any nesting depth
an input of that length can produce. -/
def jsonLoad (s : List Char) : Option Json :=
  match parseVal (s.length + 1) s with
  | some (v, rest) => if skipWs rest = [] then some v else none
  | none => none

theorem hexVal_hexDigit (n : Nat) (h : n < 16) : hexVal (hexDigit n) = some n := by
  interval_cases n <;> decide

theorem parseStrBody_escStr (s rest : List Char) :
    parseStrBody (escStr s ++ '"' :: rest) = some (s, rest) := by
  induction s with
  | nil =>
    rw [escStr, List.nil_append, parseStrBody.eq_def]
    simp +decide
  | cons c s2 ih =>
    by_cases hq : c = '"'
    · subst hq
      rw [escStr, escChar]
      simp only [if_pos rfl, List.cons_append, List.nil_append]
      rw [parseStrBody.eq_def]
      simp +decide [unescape, ih]
    · by_cases hb : c = '\\'
      · subst hb
        rw [escStr, escChar]
        simp +decide only [List.cons_append, List.nil_append]
        rw [parseStrBody.eq_def]
        simp +decide [unescape, ih]
      · by_cases hc : c.toNat < 32
        · have hdiv : c.toNat / 16 < 16 := by omega
          have hmod : c.toNat % 16 < 16 := Nat.mod_lt _ (by omega)
          have harg2 : 16 * (c.toNat / 16) + c.toNat % 16 = c.toNat := by omega
          have h0 : hexVal '0' = some 0 := by decide
          rw [escStr, escChar]
          rw [if_neg hq, if_neg hb, if_pos hc]
          simp only [List.cons_append, List.nil_append]
          rw [parseStrBody.eq_def]
          simp +decide [h0, hexVal_hexDigit _ hdiv, hexVal_hexDigit _ hmod, harg2,
            Char.ofNat_toNat, ih]
        · rw [escStr, escChar]
          rw [if_neg hq, if_neg hb, if_neg hc]
          simp only [List.cons_append, List.nil_append]
          rw [parseStrBody.eq_def]
          simp [hq, hb, ih]

theorem dump_length_pos (v : Json) : 0 < (dumpJson v).length := by
  cases v with
  | null => simp [dumpJson]
  | bool b => cases b <;> simp [dumpJson]
  | str s => simp [dumpJson]
  | obj ms => simp [dumpJson]

theorem parse_dump_aux : ∀ fuel : Nat,
    (∀ (v : Json) (rest : List Char), (dumpJson v).length ≤ fuel →
      parseVal fuel (dumpJson v ++ rest) = some (v, rest)) ∧
    (∀ (k : List Char) (v : Json) (ms : Members) (rest : List Char),
      (dumpMembers (.cons k v ms)).length + 1 ≤ fuel →
      parseMembers fuel (dumpMembers (.cons k v ms) ++ '\x7d' :: rest) =
        some (.cons k v ms, rest)) := by
  intro fuel
  induction fuel with
  | zero =>
    constructor
    · intro v rest h
      have := dump_length_pos v
      omega
    · intro k v ms rest h
      omega
  | succ fuel ih =>
    constructor
    · intro v rest hlen
      cases v with
      | null =>
        rw [dumpJson, parseVal.eq_def]
        simp +decide [skipWs, isWs]
      | bool b =>
        cases b <;> (rw [dumpJson, parseVal.eq_def]; simp +decide [skipWs, isWs])
      | str s =>
        rw [dumpJson, parseVal.eq_def]
        simp +decide [skipWs, isWs, parseStrBody_escStr]
      | obj ms =>
        cases ms with
        | nil =>
          rw [dumpJson, dumpMembers, parseVal.eq_def]
          simp +decide [skipWs, isWs]
        | cons k v2 ms2 =>
          have hb2 : (dumpMembers (Members.cons k v2 ms2)).length + 1 ≤ fuel := by
            rw [dumpJson] at hlen
            simp [List.length_append] at hlen
            omega
          have hq := ih.2 k v2 ms2 rest hb2
          rw [dumpMembers] at hq
          simp only [List.cons_append, List.append_assoc, List.nil_append] at hq
          rw [dumpJson, dumpMembers, parseVal.eq_def]
          simp +decide [skipWs, isWs, hq]
    · intro k v ms rest hlen
      have hbv : (dumpJson v).length ≤ fuel := by
        rw [dumpMembers] at hlen
        simp [List.length_append] at hlen
        omega
      have hv := ih.1 v (dumpTail ms ++ '\x7d' :: rest) hbv
      rw [parseMembers.eq_def, dumpMembers]
      simp only [List.cons_append, List.append_assoc, List.nil_append]
      rw [parseStrBody_escStr]
      cases ms with
      | nil =>
        rw [dumpTail]
        rw [dumpTail] at hv
        simp only [List.nil_append] at hv ⊢
        simp +decide [skipWs, isWs, hv]
      | cons k2 v2 ms2 =>
        have hb3 : (dumpMembers (Members.cons k2 v2 ms2)).length + 1 ≤ fuel := by
          rw [dumpMembers, dumpTail] at hlen
          simp [List.length_append] at hlen
          rw [dumpMembers]
          simp [List.length_append]
          omega
        have hq := ih.2 k2 v2 ms2 rest hb3
        rw [dumpMembers] at hq
        simp only [List.cons_append, List.append_assoc, List.nil_append] at hq
        rw [dumpTail] at hv ⊢
        simp only [List.cons_append, List.append_assoc, List.nil_append] at hv ⊢
        simp +decide [skipWs, isWs, hv, hq]

theorem jsonLoad_dumpJson (v : Json) : jsonLoad (dumpJson v) = some v := by
  unfold jsonLoad
  have h := (parse_dump_aux ((dumpJson v).length + 1)).1 v [] (by omega)
  rw [List.append_nil] at h
  rw [h]
  simp [skipWs]

/-! ## Metadata persistence (`backup_and_save_metadata`, `load_metadata`) -/

/-- The on-disk state relevant to the metadata store at one path: the primary
file, its `.bak` sibling and its `.tmp` sibling (each `none` when absent). -/
structure MetaFS where
  primary : Option (List Char)
  bak : Option (List Char)
  tmp : Option (List Char)
deriving DecidableEq

/-- Step 1 of `backup_and_save_metadata`: if the primary exists,
`shutil.copy(path, path + '.bak')`. -/
def backupStep (fs : MetaFS) : MetaFS :=
  if fs.primary.isSome then { fs with bak := fs.primary } else fs

/-- Step 2: write the serialized mapping to `path + '.tmp'`.  A crash can
leave any partial content here, which is why the step takes the content
written so far as an argument. -/
def writeTmpStep (fs : MetaFS) (content : List Char) : MetaFS :=
  { fs with tmp := some content }

/-- Step 3: `os.replace(tmp_path, path)` — atomic rename of the temp file
onto the primary. -/
def replaceStep (fs : MetaFS) : MetaFS :=
  { fs with primary := fs.tmp, tmp := none }

/-- `backup_and_save_metadata(metadata, path)` (scripts/utils.py and its
duplicate in scripts/convert_faa_charts.py): backup, serialize to the temp
file, atomically replace. -/
def backup_and_save_metadata (metadata : Json) (fs : MetaFS) : MetaFS :=
  replaceStep (writeTmpStep (backupStep fs) (dumpJson metadata))

/-- The states observable at any point of `backup_and_save_metadata`,
including a crash in the middle of writing the temp file (arbitrary
`interim` content) and the state between the backup and the replace. -/
def saveObservable (metadata : Json) (fs s : MetaFS) : Prop :=
  s = fs ∨ s = backupStep fs ∨
  (∃ interim, s = writeTmpStep (backupStep fs) interim) ∨
  s = backup_and_save_metadata metadata fs

/-- `load_metadata()` (scripts/download_faa_charts.py): read and parse the
primary file; an absent file or any exception (in the model: a failed parse)
yields the empty mapping.  The function is total — it never raises. -/
def load_metadata (fs : MetaFS) : Json :=
  match fs.primary with
  | none => .obj .nil
  | some content =>
    match jsonLoad content with
    | some v => v
    | none => .obj .nil

/-- C3: after `backup_and_save_metadata` the `.bak` file holds the previous
primary content and the primary holds the new serialized mapping; and at
every observable intermediate point — including an interruption between the
backup step and the replace step, or mid-way through the temp-file write —
the primary file is exactly the complete old content or the complete new
content, never partial. -/
theorem C3_backup_then_atomic_write (metadata : Json) (fs : MetaFS)
    (old : List Char) (h : fs.primary = some old) :
    ((backup_and_save_metadata metadata fs).bak = some old ∧
     (backup_and_save_metadata metadata fs).primary = some (dumpJson metadata)) ∧
    ∀ s, saveObservable metadata fs s →
      s.primary = some old ∨ s.primary = some (dumpJson metadata) := by
  constructor
  · constructor
    · simp [backup_and_save_metadata, replaceStep, writeTmpStep, backupStep, h]
    · simp [backup_and_save_metadata, replaceStep, writeTmpStep, backupStep, h]
  · intro s hs
    rcases hs with rfl | rfl | ⟨interim, rfl⟩ | rfl
    · exact Or.inl h
    · left
      simp [backupStep, h]
    · left
      simp [writeTmpStep, backupStep, h]
    · right
      simp [backup_and_save_metadata, replaceStep, writeTmpStep, backupStep, h]

/-- C3 witness: the theorem applied to a concrete prior file. -/
theorem C3_backup_then_atomic_write_witness :
    (backup_and_save_metadata (.obj .nil)
      { primary := some "old-content".data, bak := none, tmp := none }).bak =
      some "old-content".data ∧
    (backup_and_save_metadata (.obj .nil)
      { primary := some "old-content".data, bak := none, tmp := none }).primary =
      some (dumpJson (.obj .nil)) :=
  (C3_backup_then_atomic_write (.obj .nil)
    { primary := some "old-content".data, bak := none, tmp := none }
    "old-content".data rfl).1

/-- C4: saving any metadata mapping with `backup_and_save_metadata` and
reloading through `load_metadata` from the same path returns an equal
mapping. -/
theorem C4_save_load_roundtrip (metadata : Json) (fs : MetaFS) :
    load_metadata (backup_and_save_metadata metadata fs) = metadata := by
  unfold load_metadata backup_and_save_metadata replaceStep writeTmpStep
  simp [jsonLoad_dumpJson]

/-- C5: `load_metadata` is total (never raises); it returns the empty mapping
when the file is absent, and also when the file exists but its content fails
to parse as JSON. -/
theorem C5_load_metadata_total (fs : MetaFS) :
    (fs.primary = none → load_metadata fs = .obj .nil) ∧
    (∀ content, fs.primary = some content → jsonLoad content = none →
      load_metadata fs = .obj .nil) := by
  constructor
  · intro h
    unfold load_metadata
    rw [h]
  · intro content h hbad
    unfold load_metadata
    rw [h]
    simp [hbad]

/-- C5 witness: an absent file and a corrupt file both load as the empty
mapping. -/
theorem C5_load_metadata_total_witness :
    load_metadata { primary := none, bak := none, tmp := none } = .obj .nil ∧
    load_metadata { primary := some "notazip".data, bak := none, tmp := none } =
      .obj .nil :=
  ⟨(C5_load_metadata_total { primary := none, bak := none, tmp := none }).1 rfl,
   (C5_load_metadata_total
      { primary := some "notazip".data, bak := none, tmp := none }).2
      "notazip".data rfl rfl⟩

/-! ## IFR link discovery: `fetch_ifr_low_high_links`

The page is already fetched and parsed; it is represented by its tables,
each table by its rows, each row by its `td` cells (`row.find_all('td')`),
each cell by its text and its anchors.  The date search
`re.search(r'([A-Z][a-z]\x7b2\x7d \d\x7b1,2\x7d \d\x7b4\x7d)', text)` and
`datetime.strptime(..., '%b %d %Y').strftime('%Y-%m-%d')` are modelled
character by character below (ASCII letters and digits; Python's `\d` and
`.lower()` also cover non-ASCII, which FAA chart tables do not use). -/

/-- ASCII decimal digit (`\d` of the date pattern). -/
def isDigitCh (c : Char) : Bool := 48 ≤ c.toNat && c.toNat ≤ 57

/-- ASCII `[A-Z]`. -/
def isUpperAlpha (c : Char) : Bool := 65 ≤ c.toNat && c.toNat ≤ 90

/-- ASCII `[a-z]`. -/
def isLowerAlpha (c : Char) : Bool := 97 ≤ c.toNat && c.toNat ≤ 122

/-- ASCII `str.lower()` of one character. -/
def toLowerCh (c : Char) : Char :=
  if 65 ≤ c.toNat && c.toNat ≤ 90 then Char.ofNat (c.toNat + 32) else c

/-- `str.lower()`. -/
def toLowerStr (s : List Char) : List Char := s.map toLowerCh

/-- `str.strip()`. -/
def stripWs (s : List Char) : List Char :=
  ((s.dropWhile isWs).reverse.dropWhile isWs).reverse

/-- Python `pat in s` (substring containment). -/
def strContains : List Char → List Char → Bool
  | [], pat => pat.isEmpty
  | c :: rest, pat => pat.isPrefixOf (c :: rest) || strContains rest pat

/-- `any(code.startswith(p) for p in ps)`; also `code.startswith(tuple)`. -/
def startsWithAny (code : List Char) (ps : List (List Char)) : Bool :=
  ps.any (fun p => p.isPrefixOf code)

/-- Attempt the pattern `[A-Z][a-z]\x7b2\x7d \d\x7b1,2\x7d \d\x7b4\x7d` at
the start of `s`, returning the matched text.  The greedy `\d\x7b1,2\x7d`
takes two digits when it can; backtracking to one digit then demands a space
where the second digit stands, which a digit never is — so the two branches
below are exhaustive. -/
def tryDateAt (s : List Char) : Option (List Char) :=
  match s with
  | c0 :: c1 :: c2 :: c3 :: rest =>
    if isUpperAlpha c0 && isLowerAlpha c1 && isLowerAlpha c2 && c3 == ' ' then
      match rest with
      | d1 :: tail =>
        if isDigitCh d1 then
          match tail with
          | d2 :: tail2 =>
            if isDigitCh d2 then
              match tail2 with
              | sp :: y1 :: y2 :: y3 :: y4 :: _ =>
                if sp == ' ' && isDigitCh y1 && isDigitCh y2 && isDigitCh y3 &&
                    isDigitCh y4 then
                  some [c0, c1, c2, ' ', d1, d2, ' ', y1, y2, y3, y4]
                else none
              | _ => none
            else if d2 == ' ' then
              match tail2 with
              | y1 :: y2 :: y3 :: y4 :: _ =>
                if isDigitCh y1 && isDigitCh y2 && isDigitCh y3 && isDigitCh y4 then
                  some [c0, c1, c2, ' ', d1, ' ', y1, y2, y3, y4]
                else none
              | _ => none
            else none
          | [] => none
        else none
      | [] => none
    else none
  | _ => none

/-- `re.search` for the date pattern: leftmost match wins. -/
def findDate : List Char → Option (List Char)
  | [] => none
  | c :: rest =>
    match tryDateAt (c :: rest) with
    | some m => some m
    | none => findDate rest

/-- Split on single spaces (the matched text has exactly two). -/
def splitSp : List Char → List (List Char)
  | [] => [[]]
  | c :: rest =>
    let r := splitSp rest
    if c = ' ' then [] :: r
    else
      match r with
      | [] => [[c]]
      | h :: t => (c :: h) :: t

/-- `%b`: case-insensitive month abbreviation (input already lower-cased). -/
def monthNumber (m : List Char) : Option Nat :=
  if m = "jan".data then some 1
  else if m = "feb".data then some 2
  else if m = "mar".data then some 3
  else if m = "apr".data then some 4
  else if m = "may".data then some 5
  else if m = "jun".data then some 6
  else if m = "jul".data then some 7
  else if m = "aug".data then some 8
  else if m = "sep".data then some 9
  else if m = "oct".data then some 10
  else if m = "nov".data then some 11
  else if m = "dec".data then some 12
  else none

/-- Gregorian leap year, as `datetime` validates dates. -/
def isLeapYear (y : Nat) : Bool :=
  y % 4 = 0 && (y % 100 != 0 || y % 400 = 0)

/-- Days in a month, as `datetime` validates the day. -/
def daysInMonth (y m : Nat) : Nat :=
  if m = 2 then (if isLeapYear y then 29 else 28)
  else if m = 4 || m = 6 || m = 9 || m = 11 then 30
  else 31

/-- Decimal value of a digit string. -/
def digitsToNat (s : List Char) : Nat :=
  s.foldl (fun acc c => acc * 10 + (c.toNat - 48)) 0

/-- A validated calendar date. -/
structure YMD where
  y : Nat
  m : Nat
  d : Nat
deriving DecidableEq

/-- `datetime.strptime(s, '%b %d %Y')` on the shapes the date pattern can
match: month abbreviation, 1-2 digit day, 4 digit year, validated against
the calendar (`datetime` rejects day 0, days beyond the month's length, and
year 0). -/
def strptimeBDY (s : List Char) : Option YMD :=
  match splitSp s with
  | [mon, day, yr] =>
    match monthNumber (toLowerStr mon) with
    | none => none
    | some m =>
      if day ≠ [] ∧ day.length ≤ 2 ∧ day.all isDigitCh ∧
          yr.length = 4 ∧ yr.all isDigitCh then
        if 1 ≤ digitsToNat yr ∧ 1 ≤ digitsToNat day ∧
            digitsToNat day ≤ daysInMonth (digitsToNat yr) m then
          some ⟨digitsToNat yr, m, digitsToNat day⟩
        else none
      else none
  | _ => none

/-- The low digit character of a value (for zero-padded fields). -/
def digitCh (n : Nat) : Char := Char.ofNat (48 + n % 10)

/-- `%02d` for values below 100. -/
def fmt2 (n : Nat) : List Char := [digitCh (n / 10), digitCh n]

/-- `%04d` for values below 10000 (`%Y` of a 4-digit year). -/
def fmt4 (n : Nat) : List Char :=
  [digitCh (n / 1000), digitCh (n / 100), digitCh (n / 10), digitCh n]

/-- `.strftime('%Y-%m-%d')`. -/
def strftimeYMD (x : YMD) : List Char :=
  fmt4 x.y ++ '-' :: (fmt2 x.m ++ '-' :: fmt2 x.d)

/-- The `published_date` computation of `fetch_ifr_low_high_links`: search
the cell text for a date; parse it; reformat.  `None` when the search or the
parse fails (the code logs a warning and keeps `published_date = None`). -/
def parsePublishedDate (text : List Char) : Option (List Char) :=
  match findDate text with
  | none => none
  | some m =>
    match strptimeBDY m with
    | some ymd => some (strftimeYMD ymd)
    | none => none

/-- An anchor of a table cell: its text and href. -/
structure Anchor where
  text : List Char
  href : List Char
deriving DecidableEq

/-- A `td` cell: its text and its anchors. -/
structure Cell where
  text : List Char
  anchors : List Anchor
deriving DecidableEq

/-- `IFR_SKIP_PREFIXES` from scripts/download_faa_charts.py. -/
def IFR_SKIP_PREFIXES : List (List Char) :=
  ["ELAK".data, "EHAA".data, "ELHI".data, "EHPH".data, "ELPA".data,
   "EHPA".data, "AREA".data, "EHAK".data, "EPHI".data]

/-- `IFR_LOW_PREFIXES`. -/
def IFR_LOW_PREFIXES : List (List Char) := ["ELUS".data]

/-- `IFR_HIGH_PREFIXES`. -/
def IFR_HIGH_PREFIXES : List (List Char) := ["EHUS".data]

/-- The FAA IFR page URL (`IFR_CHARTS_URL`). -/
def IFR_CHARTS_URL : List Char :=
  "https://www.faa.gov/air_traffic/flight_info/aeronav/digital_products/ifr/".data

/-- The entries one table row contributes: skipped when it has fewer than two
cells, when the code matches no allowed prefix, or when it matches a skip
prefix; otherwise one entry per `GEO-TIFF` zip anchor of the second cell,
all carrying the date parsed from that cell's text. -/
def rowEntries (base_url : List Char) (allowed : List (List Char))
    (row : List Cell) : List IfrEntry :=
  match row with
  | c0 :: c1 :: _ =>
    if !startsWithAny (stripWs c0.text) allowed then []
    else if startsWithAny (stripWs c0.text) IFR_SKIP_PREFIXES then []
    else
      (c1.anchors.filter (fun a =>
        strContains (toLowerStr (stripWs a.text)) "geo-tiff".data &&
        endsWithStr a.href ".zip".data)).map
        (fun a => { chart_code := stripWs c0.text,
                    published_date := parsePublishedDate c1.text,
                    url := make_absolute_url base_url a.href })
  | _ => []

/-- `fetch_ifr_low_high_links(base_url, allowed_prefixes)` on an
already-fetched-and-parsed page: iterate every row of every table. -/
def fetch_ifr_low_high_links (base_url : List Char)
    (tables : List (List (List Cell))) (allowed : List (List Char)) :
    List IfrEntry :=
  tables.flatMap (fun t => t.flatMap (fun row => rowEntries base_url allowed row))

/-- The YYYY-MM-DD shape: four digits, dash, two digits, dash, two digits. -/
def dateShape (d : List Char) : Bool :=
  match d with
  | [y1, y2, y3, y4, s1, m1, m2, s2, d1, d2] =>
    isDigitCh y1 && isDigitCh y2 && isDigitCh y3 && isDigitCh y4 &&
    s1 == '-' && isDigitCh m1 && isDigitCh m2 && s2 == '-' &&
    isDigitCh d1 && isDigitCh d2
  | _ => false

/-- Zero-padded digit characters are digits. -/
theorem isDigitCh_digitCh (n : Nat) : isDigitCh (digitCh n) = true := by
  unfold isDigitCh digitCh
  have h : (48 + n % 10) < 55296 := by omega
  have hv : Nat.isValidChar (48 + n % 10) := Or.inl h
  have ht : (Char.ofNat (48 + n % 10)).toNat = 48 + n % 10 := by
    simp [Char.ofNat, hv]
    rfl
  rw [ht]
  simp
  omega

/-- The formatter always produces the YYYY-MM-DD shape. -/
theorem dateShape_strftimeYMD (x : YMD) : dateShape (strftimeYMD x) = true := by
  simp +decide [strftimeYMD, fmt4, fmt2, dateShape, isDigitCh_digitCh]

/-- A parsed published date always has the YYYY-MM-DD shape. -/
theorem parsePublishedDate_shape {t d : List Char}
    (h : parsePublishedDate t = some d) : dateShape d = true := by
  unfold parsePublishedDate at h
  split at h
  · exact absurd h (by simp)
  · split at h
    · next ymd heq =>
      obtain rfl : strftimeYMD ymd = d := by injection h
      exact dateShape_strftimeYMD ymd
    · exact absurd h (by simp)

/-- Any entry a row contributes satisfies the prefix filters, takes its code
from the first cell and its date from the second cell's text. -/
theorem mem_rowEntries {base_url : List Char} {allowed : List (List Char)}
    {row : List Cell} {e : IfrEntry} (h : e ∈ rowEntries base_url allowed row) :
    ∃ c0 c1 rest, row = c0 :: c1 :: rest ∧
      startsWithAny (stripWs c0.text) allowed = true ∧
      startsWithAny (stripWs c0.text) IFR_SKIP_PREFIXES = false ∧
      e.chart_code = stripWs c0.text ∧
      e.published_date = parsePublishedDate c1.text := by
  match row with
  | [] => simp [rowEntries] at h
  | [c0] => simp [rowEntries] at h
  | c0 :: c1 :: rest =>
    refine ⟨c0, c1, rest, rfl, ?_⟩
    cases hA : startsWithAny (stripWs c0.text) allowed with
    | false => simp [rowEntries, hA] at h
    | true =>
      cases hB : startsWithAny (stripWs c0.text) IFR_SKIP_PREFIXES with
      | true => simp [rowEntries, hA, hB] at h
      | false =>
        simp only [rowEntries, hA, hB, Bool.not_true, Bool.false_eq_true,
          if_false, if_neg, Bool.not_eq_true, List.mem_map, List.mem_filter] at h
        obtain ⟨a, -, heq⟩ := h
        cases heq
        exact ⟨rfl, rfl, rfl, rfl⟩

/-- C7 counterexample: a qualifying row whose second cell carries a GEO-TIFF
zip link but no parseable date text — the extractor still returns the entry,
with `published_date = None`, so not every returned entry pairs the code
with a parsed date. -/
theorem C7_entry_returned_without_date :
    fetch_ifr_low_high_links IFR_CHARTS_URL
      [[[{ text := "ELUS1".data, anchors := [] },
         { text := "Effective date TBD".data,
           anchors := [{ text := "GEO-TIFF (ZIP)".data, href := "elus1.zip".data }] }]]]
      IFR_LOW_PREFIXES =
      [{ chart_code := "ELUS1".data, published_date := none,
         url := make_absolute_url IFR_CHARTS_URL "elus1.zip".data }] ∧
    (IfrEntry.published_date
      { chart_code := "ELUS1".data, published_date := none,
        url := make_absolute_url IFR_CHARTS_URL "elus1.zip".data }) = none := by
  constructor
  · decide
  · rfl

/-- C7 (amended): every entry the IFR extractor returns has a chart code
matching an allowed prefix and no skip prefix, taken from its row's first
cell; its `published_date` is the date parsed from the row's second cell —
in YYYY-MM-DD form whenever it is present, and `None` when the cell contains
no parseable date. -/
theorem C7_ifr_links_filtered_and_dated (base_url : List Char)
    (tables : List (List (List Cell))) (allowed : List (List Char))
    (e : IfrEntry) (h : e ∈ fetch_ifr_low_high_links base_url tables allowed) :
    startsWithAny e.chart_code allowed = true ∧
    startsWithAny e.chart_code IFR_SKIP_PREFIXES = false ∧
    (∃ t ∈ tables, ∃ row ∈ t, ∃ c0 c1 rest, row = c0 :: c1 :: rest ∧
      e.chart_code = stripWs c0.text ∧
      e.published_date = parsePublishedDate c1.text) ∧
    (∀ d, e.published_date = some d → dateShape d = true) := by
  obtain ⟨t, ht, hrow⟩ := List.mem_flatMap.mp h
  obtain ⟨row, hr, he⟩ := List.mem_flatMap.mp hrow
  obtain ⟨c0, c1, rest, rfl, hA, hB, hcode, hdate⟩ := mem_rowEntries he
  refine ⟨by rw [hcode]; exact hA, by rw [hcode]; exact hB,
    ⟨t, ht, _, hr, c0, c1, rest, rfl, hcode, hdate⟩, ?_⟩
  intro d hd
  rw [hdate] at hd
  exact parsePublishedDate_shape hd

/-- A fixture page whose row carries a parseable date (Feb 29 2024, a leap
day, exercising the calendar validation). -/
def datedIfrPage : List (List (List Cell)) :=
  [[[{ text := "ELUS2".data, anchors := [] },
     { text := "Effective Feb 29 2024".data,
       anchors := [{ text := "GEO-TIFF (ZIP)".data, href := "d02/elus2.zip".data }] }]]]

/-- The entry the fixture produces. -/
def datedIfrEntry : IfrEntry :=
  { chart_code := "ELUS2".data, published_date := some "2024-02-29".data,
    url := make_absolute_url IFR_CHARTS_URL "d02/elus2.zip".data }

/-- C7 witness: the amended theorem on the fixture entry. -/
theorem C7_ifr_links_filtered_and_dated_witness :
    datedIfrEntry ∈ fetch_ifr_low_high_links IFR_CHARTS_URL datedIfrPage IFR_LOW_PREFIXES ∧
    startsWithAny datedIfrEntry.chart_code IFR_LOW_PREFIXES = true ∧
    startsWithAny datedIfrEntry.chart_code IFR_SKIP_PREFIXES = false ∧
    dateShape "2024-02-29".data = true := by
  refine ⟨by decide, ?_, ?_, ?_⟩
  · exact (C7_ifr_links_filtered_and_dated IFR_CHARTS_URL datedIfrPage
      IFR_LOW_PREFIXES datedIfrEntry (by decide)).1
  · exact (C7_ifr_links_filtered_and_dated IFR_CHARTS_URL datedIfrPage
      IFR_LOW_PREFIXES datedIfrEntry (by decide)).2.1
  · exact (C7_ifr_links_filtered_and_dated IFR_CHARTS_URL datedIfrPage
      IFR_LOW_PREFIXES datedIfrEntry (by decide)).2.2.2 "2024-02-29".data rfl

end FAAChart
